import Mathlib

/-!
# simple_crawler: crawl logic of `crawler.go`

A shallow embedding of the crawler's URL handling, same-site test, link
frontier, file-path mapping and depth-bounded traversal, followed by the
properties established about them.

Go strings are byte sequences.  They are modelled as `List Char`, one `Char`
per byte.  Every pattern the program uses (`"http://"`, `"https://"`, `"/"`,
`"&"`, `"?"`, `"_"`) is ASCII, so the byte-wise library operations it calls
behave on such lists exactly as on the bytes.
-/

namespace Crawler

/-- A Go `string`. -/
abbrev GoString := List Char

/-! ## Library operations used by the program -/

/-- The literal `"http://"`. -/
def httpScheme : GoString := ['h', 't', 't', 'p', ':', '/', '/']

/-- The literal `"https://"`. -/
def httpsScheme : GoString := ['h', 't', 't', 'p', 's', ':', '/', '/']

/-- Go `strings.HasPrefix(s, prefix)`:
`len(s) >= len(prefix) && s[:len(prefix)] == prefix`. -/
def HasPrefix (s pre : GoString) : Bool :=
  decide (pre.length ≤ s.length) && (s.take pre.length == pre)

/-- Go `strings.Contains(s, substr)`: `substr` occurs in `s` at some offset. -/
def Contains : GoString → GoString → Bool
  | [], substr => HasPrefix [] substr
  | c :: s, substr => HasPrefix (c :: s) substr || Contains s substr

/-- Go `strings.Replace(s, old, new, 1)`: the first occurrence of `old` in `s`
is replaced by `new`; `s` is returned unchanged when there is none. -/
def ReplaceFirst : GoString → GoString → GoString → GoString
  | [], old, new => if HasPrefix [] old then new else []
  | c :: s, old, new =>
    if HasPrefix (c :: s) old then new ++ (c :: s).drop old.length
    else c :: ReplaceFirst s old new

/-- Go `strings.ReplaceAll(s, old, new)` for one-byte `old` and `new`, the only
way the program calls it (`"&"` and `"?"` to `"_"`). -/
def ReplaceAll (s : GoString) (old new : Char) : GoString :=
  s.map fun c => if c = old then new else c

/-- Go `strings.TrimLeft(s, cutset)` for the one-byte cutset `"/"`. -/
def TrimLeft (s : GoString) (cut : Char) : GoString :=
  s.dropWhile (· == cut)

/-- Go `strings.TrimRight(s, cutset)` for the one-byte cutset `"/"`. -/
def TrimRight (s : GoString) (cut : Char) : GoString :=
  s.rdropWhile (· == cut)

/-- Auxiliary loop of `Split`: `cur` is the current fragment, reversed. -/
def splitAux (sep : Char) : GoString → GoString → List GoString
  | [], cur => [cur.reverse]
  | c :: s, cur =>
    if c = sep then cur.reverse :: splitAux sep s [] else splitAux sep s (c :: cur)

/-- Go `strings.Split(s, sep)` for a one-byte separator: the fragments between
the separators, always at least one. -/
def Split (s : GoString) (sep : Char) : List GoString :=
  splitAux sep s []

/-- Go `strings.Join(elems, "/")`. -/
def joinSlash : List GoString → GoString
  | [] => []
  | [e] => e
  | e :: es => e ++ '/' :: joinSlash es

/-- One step of `filepath.Clean` on Unix: `out` is the stack of elements kept so
far (most recent first), `e` the next element of the path. -/
def cleanStep (rooted : Bool) (out : List GoString) (e : GoString) : List GoString :=
  if e = [] ∨ e = ['.'] then out
  else if e = ['.', '.'] then
    match out with
    | [] => if rooted then [] else [e]
    | top :: rest => if top = ['.', '.'] then e :: out else rest
  else e :: out

/-- Go `filepath.Clean(path)` on Unix: empty and `.` elements are dropped, an
inner `..` removes the element before it, a rooted path keeps its leading
slash, and the empty result is `.`. -/
def Clean (path : GoString) : GoString :=
  if path = [] then ['.']
  else
    let rooted := HasPrefix path ['/']
    let out := (Split path '/').foldl (cleanStep rooted) []
    let body := joinSlash out.reverse
    if rooted then '/' :: body else if body = [] then ['.'] else body

/-- Go `filepath.Join(elem...)` on Unix: the elements from the first non-empty
one on are joined with `/` and the result is cleaned; all empty gives `""`. -/
def filepathJoin : List GoString → GoString
  | [] => []
  | e :: es => if e = [] then filepathJoin es else Clean (joinSlash (e :: es))

/-! ## URL helpers (`crawler.go`, lines 98-125) -/

/-- The function `IsSubfolder(main_url, link)`:
`len(link) >= len(main_url) && link[:len(main_url)] == main_url`. -/
def IsSubfolder (main_url link : GoString) : Bool :=
  decide (link.length ≥ main_url.length) && (link.take main_url.length == main_url)

/-- The function `AddHttpPrefixToUrlIfNeeded(url)`. -/
def AddHttpPrefixToUrlIfNeeded (url : GoString) : GoString :=
  if !HasPrefix url httpsScheme && !HasPrefix url httpScheme then httpScheme ++ url
  else url

/-- The function `TrimSchemeIfNeeded(url)`. -/
def TrimSchemeIfNeeded (url : GoString) : GoString :=
  if HasPrefix url httpsScheme then url.drop httpsScheme.length
  else if HasPrefix url httpScheme then url.drop httpScheme.length
  else url

/-- The function `StripScheme(url)`. -/
def StripScheme (url : GoString) : GoString :=
  if HasPrefix url httpsScheme then (url.take url.length).drop httpsScheme.length
  else if HasPrefix url httpScheme then (url.take url.length).drop httpScheme.length
  else url

/-! ## The fetcher and its frontier (`crawler.go`, lines 17-33) -/

/-- A Go `map[string]bool`, as the list of its entries.  `mapGet` reads the
first entry of a key and `mapSet` keeps one entry per key. -/
abbrev LinkMap := List (GoString × Bool)

/-- The comma-ok read `v, found := m[k]`: `none` when `k` is not a key. -/
def mapGet : LinkMap → GoString → Option Bool
  | [], _ => none
  | (k', v) :: m, k => if k' = k then some v else mapGet m k

/-- The assignment `m[k] = v`. -/
def mapSet : LinkMap → GoString → Bool → LinkMap
  | [], k, v => [(k, v)]
  | (k', v') :: m, k, v => if k' = k then (k', v) :: m else (k', v') :: mapSet m k v

/-- The keys of a map. -/
def mapKeys (m : LinkMap) : List GoString :=
  m.map Prod.fst

/-- The struct `Fetcher`. -/
structure Fetcher where
  InitUrl : GoString
  MaxDepth : Int
  Destination : GoString
  LinksToProcess : LinkMap
  deriving DecidableEq, Repr

/-- The function `NewFetcher(url, max_depth, dest)`; its error result is always `nil`. -/
def NewFetcher (url : GoString) (max_depth : Int) (dest : GoString) : Fetcher :=
  let f : Fetcher :=
    { InitUrl := url, MaxDepth := max_depth, Destination := dest, LinksToProcess := [] }
  { f with LinksToProcess := mapSet f.LinksToProcess url false }

/-! ## Link registration (`crawler.go`, lines 69-96) -/

/-- The value of `href` when control reaches line 88 of `ProcessGoQueryElement`,
for the attribute value `href0` (lines 76-87). -/
def resolvedHref (InitUrl href0 : GoString) : GoString :=
  let trimmedInitUrl := TrimSchemeIfNeeded InitUrl
  if !(HasPrefix href0 httpsScheme || HasPrefix href0 httpScheme) then
    let href := TrimLeft href0 '/'
    if !Contains href trimmedInitUrl then
      let href := if decide (href.length > 0) && (href.take 1 != ['/']) then '/' :: href else href
      InitUrl ++ href
    else href
  else href0

/-- The value of `trimmedHref` when control reaches line 88 (lines 73 and 86). -/
def resolvedTrimmedHref (InitUrl href0 : GoString) : GoString :=
  if !(HasPrefix href0 httpsScheme || HasPrefix href0 httpScheme) then
    TrimSchemeIfNeeded (resolvedHref InitUrl href0)
  else TrimSchemeIfNeeded href0

/-- The condition of line 88 for the attribute value `href0`:
`IsSubfolder(httpInitUrl, http_href) || IsSubfolder(trimmedInitUrl, trimmedHref)`. -/
def sameSiteTest (InitUrl href0 : GoString) : Bool :=
  let trimmedInitUrl := TrimSchemeIfNeeded InitUrl
  let http_href := ReplaceFirst href0 httpsScheme httpScheme
  let httpInitUrl := ReplaceFirst InitUrl httpsScheme httpScheme
  IsSubfolder httpInitUrl http_href ||
    IsSubfolder trimmedInitUrl (resolvedTrimmedHref InitUrl href0)

/-- The key under which lines 89-90 register the attribute value `href0`. -/
def registeredKey (InitUrl href0 : GoString) : GoString :=
  TrimRight (AddHttpPrefixToUrlIfNeeded (resolvedHref InitUrl href0)) '/'

/-- The fetcher after lines 88-94 for the attribute value `href0`, in terms of
the parts above: the key is inserted with `false` when the test holds and the
key is absent. -/
def registerHref (f : Fetcher) (href0 : GoString) : Fetcher :=
  if sameSiteTest f.InitUrl href0 then
    let href := registeredKey f.InitUrl href0
    if (mapGet f.LinksToProcess href).isNone then
      { f with LinksToProcess := mapSet f.LinksToProcess href false }
    else f
  else f

/-- The method `ProcessGoQueryElement(index, element)`.  The element is given by
the result of `element.Attr("href")`: `none` when the anchor has no `href`
attribute. -/
def ProcessGoQueryElement (f : Fetcher) (element : Option GoString) : Fetcher :=
  match element with
  | none => f
  | some href =>
    let trimmedInitUrl := TrimSchemeIfNeeded f.InitUrl
    let trimmedHref := TrimSchemeIfNeeded href
    let http_href := ReplaceFirst href httpsScheme httpScheme
    let httpInitUrl := ReplaceFirst f.InitUrl httpsScheme httpScheme
    let (href, trimmedHref) :=
      if !(HasPrefix href httpsScheme || HasPrefix href httpScheme) then
        -- Handle relative links
        let href := TrimLeft href '/'
        let href :=
          if !Contains href trimmedInitUrl then
            -- Href is not a subdomain or subfolder of trimmed initial URL
            let href :=
              if decide (href.length > 0) && (href.take 1 != ['/']) then '/' :: href else href
            f.InitUrl ++ href
          else href
        (href, TrimSchemeIfNeeded href)
      else (href, trimmedHref)
    if IsSubfolder httpInitUrl http_href || IsSubfolder trimmedInitUrl trimmedHref then
      let href := AddHttpPrefixToUrlIfNeeded href
      let href := TrimRight href '/'
      if (mapGet f.LinksToProcess href).isNone then
        { f with LinksToProcess := mapSet f.LinksToProcess href false }
      else f
    else f

/-! ## The outside world and the effects of a run -/

/-- The capabilities the crawl logic calls but does not implement. -/
structure World where
  /-- Go `http.Get(url)`: `none` is a transport error, otherwise the status
  code and the body of the response. -/
  httpGet : GoString → Option (Int × GoString)
  /-- Whether `os.Create(path)` returns an open file. -/
  createOk : GoString → Bool
  /-- Whether writing the body to the open file at `path` succeeds. -/
  writeOk : GoString → Bool
  /-- Result of goquery: `none` when the document cannot be loaded, otherwise
  the result of `Attr("href")` for each `a` element of the body, in document
  order. -/
  anchors : GoString → Option (List (Option GoString))
  /-- The order in which a `range` over the frontier yields the keys present
  when the loop starts.  Go leaves the order open; entries created while the
  loop runs may be produced or skipped, and here they are skipped. -/
  rangeOrder : List GoString → List GoString

/-- An externally visible step of a run. -/
inductive Event where
  /-- An invocation `Crawl(url, depth_level)`. -/
  | crawl (url : GoString) (depth_level : Int)
  /-- A call `GetResponseFromUrl(url)`. -/
  | fetch (url : GoString)
  /-- A call `os.Mkdir(path, _)` or `os.MkdirAll(path, _)`. -/
  | mkdir (path : GoString)
  /-- A call `os.Create(path)`. -/
  | create (path : GoString)
  /-- A successful write of a page body to the file at `path`. -/
  | write (path : GoString) (body : GoString)
  deriving DecidableEq, Repr

/-- The fetcher together with the trace of what has happened so far. -/
structure Run where
  f : Fetcher
  trace : List Event
  deriving DecidableEq, Repr

/-- Append an event to the trace. -/
def Run.log (r : Run) (e : Event) : Run :=
  { r with trace := r.trace ++ [e] }

/-- The URLs passed to `GetResponseFromUrl`, in order. -/
def fetched : List Event → List GoString
  | [] => []
  | Event.fetch url :: es => url :: fetched es
  | _ :: es => fetched es

/-- The paths passed to `os.Create`, in order. -/
def createdFiles : List Event → List GoString
  | [] => []
  | Event.create path :: es => path :: createdFiles es
  | _ :: es => createdFiles es

/-- The directories passed to `os.Mkdir` or `os.MkdirAll`, in order. -/
def createdDirs : List Event → List GoString
  | [] => []
  | Event.mkdir path :: es => path :: createdDirs es
  | _ :: es => createdDirs es

/-- The paths of the files written, in order. -/
def writtenFiles : List Event → List GoString
  | [] => []
  | Event.write path _ :: es => path :: writtenFiles es
  | _ :: es => writtenFiles es

/-- The invocations of `Crawl`, in order. -/
def crawlCalls : List Event → List (GoString × Int)
  | [] => []
  | Event.crawl url d :: es => (url, d) :: crawlCalls es
  | _ :: es => crawlCalls es

/-- The non-nil `error` values `Crawl` returns. -/
inductive CrawlError where
  /-- The error of `GetResponseFromUrl`: "Error making web request". -/
  | webRequest
  /-- The error of line 49: "Bad status code". -/
  | badStatus (code : Int)
  deriving DecidableEq, Repr

/-! ## Mapping a URL to a file (`crawler.go`, lines 127-169) -/

/-- The literal `"index.html"`. -/
def indexHtml : GoString := ['i', 'n', 'd', 'e', 'x', '.', 'h', 't', 'm', 'l']

/-- The directory that `CreateFileFromLink(url)` passes to `os.Mkdir` (first
branch) or `os.MkdirAll` (second branch), and the `file_path` it passes to
`os.Create`. -/
def filePathFromLink (f : Fetcher) (url : GoString) : GoString × GoString :=
  if url = f.InitUrl then
    let file_path := filepathJoin [f.Destination, StripScheme url]
    (file_path, filepathJoin [file_path, indexHtml])
  else
    let path_fragments := Split (StripScheme url) '/'
    let file_name := path_fragments.getLastD []
    let folders := (StripScheme url).take ((StripScheme url).length - file_name.length)
    let dir_path := filepathJoin [f.Destination, folders]
    let file_path := filepathJoin [dir_path, file_name]
    let file_path := ReplaceAll file_path '&' '_'
    let file_path := ReplaceAll file_path '?' '_'
    (dir_path, file_path)

/-- The method `CreateFileFromLink(url)`: the result is the path of the open
file, `none` for the nil file returned when `os.Create` fails; the error result
is always `nil`.  The outcomes of `os.Mkdir`, `os.MkdirAll` and `os.Chmod` only decide
which messages are printed. -/
def CreateFileFromLink (w : World) (r : Run) (url : GoString) : Run × Option GoString :=
  let (r, file_path) :=
    if url = r.f.InitUrl then
      -- If this is the initial URL, make folder in downloads dir and create index.html
      let file_path := filepathJoin [r.f.Destination, StripScheme url]
      let r := r.log (Event.mkdir file_path)
      let file_path := filepathJoin [file_path, indexHtml]
      (r, file_path)
    else
      let path_fragments := Split (StripScheme url) '/'
      let file_name := path_fragments.getLastD []
      let folders := (StripScheme url).take ((StripScheme url).length - file_name.length)
      let file_path := filepathJoin [r.f.Destination, folders]
      let r := r.log (Event.mkdir file_path)
      let file_path := filepathJoin [file_path, file_name]
      let file_path := ReplaceAll file_path '&' '_'
      let file_path := ReplaceAll file_path '?' '_'
      (r, file_path)
  let r := r.log (Event.create file_path)
  (r, if w.createOk file_path then some file_path else none)

/-! ## The traversal (`crawler.go`, lines 35-67 and 179-193) -/

/-- The call `document.Find("a").Each(f.ProcessGoQueryElement)`. -/
def processAnchors (f : Fetcher) (as : List (Option GoString)) : Fetcher :=
  as.foldl ProcessGoQueryElement f

/-- The method `CopyToFileAndProcessLinks(output, resp)`; the Boolean tells
whether the returned error is non-nil.  Writing to a nil file fails. -/
def CopyToFileAndProcessLinks (w : World) (r : Run) (output : Option GoString)
    (body : GoString) : Run × Bool :=
  match output with
  | none => (r, true)
  | some path =>
    if w.writeOk path then
      let r := r.log (Event.write path body)
      match w.anchors body with
      | none => (r, true)
      | some as => ({ r with f := processAnchors r.f as }, false)
    else (r, true)

/-- A `for link := range keys` loop whose body may fail to finish. -/
def rangeLoop (body : Run → GoString → Option Run) : List GoString → Run → Option Run
  | [], r => some r
  | link :: rest, r =>
    match body r link with
    | none => none
    | some r' => rangeLoop body rest r'

/-- The method `Crawl(url, depth_level)`.  The first argument bounds the nesting
of the recursive calls; the result is `none` when that bound is exhausted, otherwise
the state after the call and the returned error (`none` for `nil`). -/
def Crawl (w : World) : Nat → Run → GoString → Int → Option (Run × Option CrawlError)
  | 0, _, _, _ => none
  | fuel + 1, r, url0, depth_level =>
    let child_level := depth_level + 1
    let r := r.log (Event.crawl url0 depth_level)
    let r :=
      if (mapGet r.f.LinksToProcess url0).isSome then
        { r with f := { r.f with LinksToProcess := mapSet r.f.LinksToProcess url0 true } }
      else r
    let url := AddHttpPrefixToUrlIfNeeded url0
    let r := r.log (Event.fetch url)
    match w.httpGet url with
    | none => some (r, some CrawlError.webRequest)
    | some (status, body) =>
      if status ≠ 200 then some (r, some (CrawlError.badStatus status))
      else
        let (r, output) := CreateFileFromLink w r url
        let r := (CopyToFileAndProcessLinks w r output body).1
        if r.f.MaxDepth ≤ 0 ∨ depth_level < r.f.MaxDepth then
          (rangeLoop
            (fun r link =>
              if link ≠ url ∧ mapGet r.f.LinksToProcess link = some false then
                (Crawl w fuel r link child_level).map Prod.fst
              else some r)
            (w.rangeOrder (mapKeys r.f.LinksToProcess)) r).map fun r => (r, none)
        else some (r, none)

/-- The state of `Crawl(url, depth_level)` right after its call of
`GetResponseFromUrl` (lines 36-42): the invocation is logged, `url` is marked
when it is a key, and the fetch is logged. -/
def stateAtFetch (r : Run) (url : GoString) (depth_level : Int) : Run :=
  let r := r.log (Event.crawl url depth_level)
  let r :=
    if (mapGet r.f.LinksToProcess url).isSome then
      { r with f := { r.f with LinksToProcess := mapSet r.f.LinksToProcess url true } }
    else r
  r.log (Event.fetch (AddHttpPrefixToUrlIfNeeded url))

/-- The state of `Crawl(url, depth_level)` when control reaches line 59, after a
fetch that returned status 200 with the given body (lines 51-57). -/
def stateAtLoop (w : World) (r : Run) (url : GoString) (depth_level : Int)
    (body : GoString) : Run :=
  let r := stateAtFetch r url depth_level
  let (r, output) := CreateFileFromLink w r (AddHttpPrefixToUrlIfNeeded url)
  (CopyToFileAndProcessLinks w r output body).1

/-- The program's entry into the crawl (`main`, lines 215-216):
`NewFetcher(url, max_depth, dest)` followed by `Crawl(f.InitUrl, 1)`. -/
def run (w : World) (fuel : Nat) (url : GoString) (max_depth : Int) (dest : GoString) :
    Option (Run × Option CrawlError) :=
  let f := NewFetcher url max_depth dest
  Crawl w fuel { f := f, trace := [] } f.InitUrl 1

/-! ## Concrete sites used as examples -/

/-- A site whose home page `http://example.com` links to itself and to
`http://example.com/a`, a page without links; everything else is not found. -/
def loopSite : World where
  httpGet := fun url =>
    if url = "http://example.com".toList then some (200, "home".toList)
    else if url = "http://example.com/a".toList then some (200, "a".toList)
    else some (404, [])
  createOk := fun _ => true
  writeOk := fun _ => true
  anchors := fun body =>
    if body = "home".toList then
      some [some "http://example.com".toList, some "http://example.com/a".toList]
    else some []
  rangeOrder := id

/-- The six orders in which a `range` can yield the three keys that the frontier
holds during the crawl of `loopSite` from the seed `"example.com"`. -/
def loopSiteKeyOrders : List (List GoString) :=
  let e := "example.com".toList
  let h := "http://example.com".toList
  let a := "http://example.com/a".toList
  [[e, h, a], [e, a, h], [h, e, a], [h, a, e], [a, e, h], [a, h, e]]

/-- A site whose home page `http://example.com` links to two pages of the site
and to one page of another site; all pages exist and have no further links. -/
def threeLinkSite : World where
  httpGet := fun url =>
    if url = "http://example.com".toList then some (200, "home".toList)
    else some (200, [])
  createOk := fun _ => true
  writeOk := fun _ => true
  anchors := fun body =>
    if body = "home".toList then
      some [some "http://example.com/a".toList, some "http://example.com/b".toList,
        some "http://other.com".toList]
    else some []
  rangeOrder := id

/-- A site whose page at `home` has the anchors `links`; all pages exist and no
other page has anchors. -/
def siteWithLinks (home : GoString) (links : List (Option GoString)) : World where
  httpGet := fun url => if url = home then some (200, "home".toList) else some (200, [])
  createOk := fun _ => true
  writeOk := fun _ => true
  anchors := fun body => if body = "home".toList then some links else some []
  rangeOrder := id

/-- A site on which every request is answered with status 404. -/
def notFoundSite : World where
  httpGet := fun _ => some (404, [])
  createOk := fun _ => true
  writeOk := fun _ => true
  anchors := fun _ => some []
  rangeOrder := id

/-! ## Basic facts about the library operations -/

theorem hasPrefix_iff (s pre : GoString) : HasPrefix s pre = true ↔ pre <+: s := by
  unfold HasPrefix
  simp only [Bool.and_eq_true, decide_eq_true_eq, beq_iff_eq]
  constructor
  · rintro ⟨_, h⟩
    exact List.prefix_iff_eq_take.mpr h.symm
  · intro h
    exact ⟨h.length_le, (List.prefix_iff_eq_take.mp h).symm⟩

theorem isSubfolder_iff (main_url link : GoString) :
    IsSubfolder main_url link = true ↔ main_url <+: link := by
  unfold IsSubfolder
  simp only [Bool.and_eq_true, decide_eq_true_eq, beq_iff_eq, ge_iff_le]
  constructor
  · rintro ⟨_, h⟩
    exact List.prefix_iff_eq_take.mpr h.symm
  · intro h
    exact ⟨h.length_le, (List.prefix_iff_eq_take.mp h).symm⟩

theorem hasPrefix_append_self (pre s : GoString) : HasPrefix (pre ++ s) pre = true :=
  (hasPrefix_iff _ _).mpr (List.prefix_append pre s)

theorem stripScheme_eq_trim (url : GoString) : StripScheme url = TrimSchemeIfNeeded url := by
  unfold StripScheme TrimSchemeIfNeeded
  simp only [List.take_length]

theorem http_append_not_https (s : GoString) : HasPrefix (httpScheme ++ s) httpsScheme = false := by
  rw [Bool.eq_false_iff, Ne, hasPrefix_iff]
  rintro ⟨t, ht⟩
  simp [httpScheme, httpsScheme] at ht

theorem trim_http_append (s : GoString) : TrimSchemeIfNeeded (httpScheme ++ s) = s := by
  unfold TrimSchemeIfNeeded
  rw [http_append_not_https, hasPrefix_append_self]
  simp [httpScheme]

theorem trim_https_append (s : GoString) : TrimSchemeIfNeeded (httpsScheme ++ s) = s := by
  unfold TrimSchemeIfNeeded
  rw [hasPrefix_append_self]
  simp [httpsScheme]

theorem trim_addHttp (u : GoString) :
    TrimSchemeIfNeeded (AddHttpPrefixToUrlIfNeeded u) = TrimSchemeIfNeeded u := by
  unfold AddHttpPrefixToUrlIfNeeded
  split
  · rename_i h
    simp only [Bool.and_eq_true, Bool.not_eq_true', ] at h
    rw [trim_http_append]
    unfold TrimSchemeIfNeeded
    simp [h.1, h.2]
  · rfl

/-! ## `ProcessGoQueryElement` in terms of its parts -/

theorem processGoQueryElement_some (f : Fetcher) (href0 : GoString) :
    ProcessGoQueryElement f (some href0) = registerHref f href0 := by
  unfold ProcessGoQueryElement registerHref sameSiteTest registeredKey resolvedTrimmedHref
    resolvedHref
  by_cases hc : (!(HasPrefix href0 httpsScheme || HasPrefix href0 httpScheme)) = true
  · simp only [hc, if_true]
  · have hc' : (!(HasPrefix href0 httpsScheme || HasPrefix href0 httpScheme)) = false := by
      simpa using hc
    simp only [hc', Bool.false_eq_true, if_false]

theorem createFileFromLink_eq (w : World) (r : Run) (url : GoString) :
    CreateFileFromLink w r url =
      ((r.log (Event.mkdir (filePathFromLink r.f url).1)).log
          (Event.create (filePathFromLink r.f url).2),
        if w.createOk (filePathFromLink r.f url).2 then some (filePathFromLink r.f url).2
        else none) := by
  unfold CreateFileFromLink filePathFromLink
  by_cases h : url = r.f.InitUrl
  · simp only [h, if_true, Run.log]
  · simp only [h, if_false, Run.log]

/-! ## Facts about the frontier map -/

theorem mapGet_mapSet (m : LinkMap) (k k' : GoString) (v : Bool) :
    mapGet (mapSet m k v) k' = if k = k' then some v else mapGet m k' := by
  induction m with
  | nil => simp [mapSet, mapGet]
  | cons e m ih =>
    obtain ⟨k0, v0⟩ := e
    by_cases h0 : k0 = k
    · subst h0
      by_cases h1 : k0 = k' <;> simp [mapSet, mapGet, h1]
    · by_cases h1 : k0 = k'
      · subst h1
        have : ¬ k = k0 := fun h => h0 h.symm
        simp [mapSet, mapGet, h0, this]
      · simp [mapSet, mapGet, h0, h1, ih]

theorem mapGet_mapSet_self (m : LinkMap) (k : GoString) (v : Bool) :
    mapGet (mapSet m k v) k = some v := by
  simp [mapGet_mapSet]

theorem mapGet_mapSet_ne (m : LinkMap) (k k' : GoString) (v : Bool) (h : k ≠ k') :
    mapGet (mapSet m k v) k' = mapGet m k' := by
  simp [mapGet_mapSet, h]

/-! ## Facts about traces -/

theorem fetched_append (t u : List Event) : fetched (t ++ u) = fetched t ++ fetched u := by
  induction t with
  | nil => rfl
  | cons e t ih => cases e <;> simp [fetched, ih]

theorem createdFiles_append (t u : List Event) :
    createdFiles (t ++ u) = createdFiles t ++ createdFiles u := by
  induction t with
  | nil => rfl
  | cons e t ih => cases e <;> simp [createdFiles, ih]

theorem createdDirs_append (t u : List Event) :
    createdDirs (t ++ u) = createdDirs t ++ createdDirs u := by
  induction t with
  | nil => rfl
  | cons e t ih => cases e <;> simp [createdDirs, ih]

theorem writtenFiles_append (t u : List Event) :
    writtenFiles (t ++ u) = writtenFiles t ++ writtenFiles u := by
  induction t with
  | nil => rfl
  | cons e t ih => cases e <;> simp [writtenFiles, ih]

theorem crawlCalls_append (t u : List Event) :
    crawlCalls (t ++ u) = crawlCalls t ++ crawlCalls u := by
  induction t with
  | nil => rfl
  | cons e t ih => cases e <;> simp [crawlCalls, ih]

/-! ## Scheme handling (C10) -/

/-- C10, as stated, fails: for `u = "http://http://x"` the scheme is already
present, so `AddHttpPrefixToUrlIfNeeded` adds nothing and `StripScheme` removes
one scheme only; the result `"http://x"` still starts with `"http://"`. -/
theorem C10_counterexample :
    StripScheme (AddHttpPrefixToUrlIfNeeded "http://http://x".toList) = "http://x".toList ∧
      HasPrefix (StripScheme (AddHttpPrefixToUrlIfNeeded "http://http://x".toList))
        httpScheme = true := by
  decide

theorem hasPrefix_drop (u pre q : GoString) (h : HasPrefix u pre = true) :
    HasPrefix (u.drop pre.length) q = HasPrefix u (pre ++ q) := by
  rw [hasPrefix_iff] at h
  obtain ⟨t, rfl⟩ := h
  rw [List.drop_left, Bool.eq_iff_iff, hasPrefix_iff, hasPrefix_iff]
  exact (List.prefix_append_right_inj pre).symm

/-- C10, amended: for every string `u` that does not start with two schemes in a
row (none of `"http://http://"`, `"http://https://"`, `"https://http://"`,
`"https://https://"` is a prefix of `u`), `StripScheme(AddHttpPrefixToUrlIfNeeded(u))`
starts with neither `"http://"` nor `"https://"`, and the same holds with
`TrimSchemeIfNeeded` in place of `StripScheme`. -/
theorem C10_strip_after_add (u : GoString)
    (h : HasPrefix u (httpScheme ++ httpScheme) = false ∧
      HasPrefix u (httpScheme ++ httpsScheme) = false ∧
      HasPrefix u (httpsScheme ++ httpScheme) = false ∧
      HasPrefix u (httpsScheme ++ httpsScheme) = false) :
    (HasPrefix (StripScheme (AddHttpPrefixToUrlIfNeeded u)) httpScheme = false ∧
      HasPrefix (StripScheme (AddHttpPrefixToUrlIfNeeded u)) httpsScheme = false) ∧
    (HasPrefix (TrimSchemeIfNeeded (AddHttpPrefixToUrlIfNeeded u)) httpScheme = false ∧
      HasPrefix (TrimSchemeIfNeeded (AddHttpPrefixToUrlIfNeeded u)) httpsScheme = false) := by
  obtain ⟨hpp, hps, hsp, hss⟩ := h
  have key : ∀ v : GoString,
      HasPrefix v (httpScheme ++ httpScheme) = false →
      HasPrefix v (httpScheme ++ httpsScheme) = false →
      HasPrefix v (httpsScheme ++ httpScheme) = false →
      HasPrefix v (httpsScheme ++ httpsScheme) = false →
      HasPrefix v httpsScheme = true ∨ HasPrefix v httpScheme = true →
      HasPrefix (TrimSchemeIfNeeded v) httpScheme = false ∧
        HasPrefix (TrimSchemeIfNeeded v) httpsScheme = false := by
    intro v vpp vps vsp vss hv
    unfold TrimSchemeIfNeeded
    rcases hv with hv | hv
    · rw [if_pos hv, hasPrefix_drop v httpsScheme _ hv, hasPrefix_drop v httpsScheme _ hv]
      exact ⟨vsp, vss⟩
    · by_cases hs : HasPrefix v httpsScheme = true
      · rw [if_pos hs, hasPrefix_drop v httpsScheme _ hs, hasPrefix_drop v httpsScheme _ hs]
        exact ⟨vsp, vss⟩
      · rw [if_neg hs, if_pos hv, hasPrefix_drop v httpScheme _ hv,
          hasPrefix_drop v httpScheme _ hv]
        exact ⟨vpp, vps⟩
  have main : HasPrefix (TrimSchemeIfNeeded (AddHttpPrefixToUrlIfNeeded u)) httpScheme = false ∧
      HasPrefix (TrimSchemeIfNeeded (AddHttpPrefixToUrlIfNeeded u)) httpsScheme = false := by
    by_cases hv : HasPrefix u httpsScheme = true ∨ HasPrefix u httpScheme = true
    · have e : AddHttpPrefixToUrlIfNeeded u = u := by
        unfold AddHttpPrefixToUrlIfNeeded
        rcases hv with hv | hv <;> simp [hv]
      rw [e]
      exact key u hpp hps hsp hss hv
    · have hs : HasPrefix u httpsScheme = false := by
        rw [Bool.eq_false_iff]
        exact fun h' => hv (Or.inl h')
      have hp : HasPrefix u httpScheme = false := by
        rw [Bool.eq_false_iff]
        exact fun h' => hv (Or.inr h')
      have e : AddHttpPrefixToUrlIfNeeded u = httpScheme ++ u := by
        unfold AddHttpPrefixToUrlIfNeeded
        simp [hs, hp]
      rw [e, trim_http_append]
      exact ⟨hp, hs⟩
  exact ⟨by rw [stripScheme_eq_trim]; exact main, main⟩

/-- C10, amended, at `u = "https://example.com"`. -/
theorem C10_strip_after_add_witness :
    (HasPrefix "https://example.com".toList (httpScheme ++ httpScheme) = false ∧
      HasPrefix "https://example.com".toList (httpScheme ++ httpsScheme) = false ∧
      HasPrefix "https://example.com".toList (httpsScheme ++ httpScheme) = false ∧
      HasPrefix "https://example.com".toList (httpsScheme ++ httpsScheme) = false) ∧
    ((HasPrefix (StripScheme (AddHttpPrefixToUrlIfNeeded "https://example.com".toList))
          httpScheme = false ∧
        HasPrefix (StripScheme (AddHttpPrefixToUrlIfNeeded "https://example.com".toList))
          httpsScheme = false) ∧
      (HasPrefix (TrimSchemeIfNeeded (AddHttpPrefixToUrlIfNeeded "https://example.com".toList))
          httpScheme = false ∧
        HasPrefix (TrimSchemeIfNeeded (AddHttpPrefixToUrlIfNeeded "https://example.com".toList))
          httpsScheme = false)) :=
  ⟨by decide, C10_strip_after_add "https://example.com".toList (by decide)⟩

/-! ## A failed fetch (C5) -/

theorem crawl_failed_fetch (w : World) (fuel : Nat) (r : Run) (url : GoString)
    (depth_level : Int)
    (h : w.httpGet (AddHttpPrefixToUrlIfNeeded url) = none ∨
      ∃ status body, w.httpGet (AddHttpPrefixToUrlIfNeeded url) = some (status, body) ∧
        status ≠ 200) :
    ∃ e, Crawl w (fuel + 1) r url depth_level =
      some (stateAtFetch r url depth_level, some e) := by
  rcases h with h | ⟨status, body, h, hs⟩
  · exact ⟨CrawlError.webRequest, by simp [Crawl, stateAtFetch, Run.log, h]⟩
  · exact ⟨CrawlError.badStatus status, by simp [Crawl, stateAtFetch, Run.log, h, hs]⟩

/-- C5: when the fetch of `AddHttpPrefixToUrlIfNeeded(url)` fails at the transport
level or returns a status other than 200, `Crawl(url, depth_level)` returns (for
every positive bound on the nesting, so without taking a recursive step) a
non-nil error; no directory or file is created, nothing is written, the only
`Crawl` invocation is the call itself, the fetch is the only one made, the keys
of the frontier are unchanged, every key other than `url` keeps its flag, and
`url` is flagged `true` when it was a key and stays absent when it was not.
`Crawl` is a total function, so there is no panic. -/
theorem C5_failed_fetch_returns_error (w : World) (fuel : Nat) (r : Run) (url : GoString)
    (depth_level : Int)
    (h : w.httpGet (AddHttpPrefixToUrlIfNeeded url) = none ∨
      ∃ status body, w.httpGet (AddHttpPrefixToUrlIfNeeded url) = some (status, body) ∧
        status ≠ 200) :
    ∃ r' e, Crawl w (fuel + 1) r url depth_level = some (r', some e) ∧
      createdFiles r'.trace = createdFiles r.trace ∧
      createdDirs r'.trace = createdDirs r.trace ∧
      writtenFiles r'.trace = writtenFiles r.trace ∧
      crawlCalls r'.trace = crawlCalls r.trace ++ [(url, depth_level)] ∧
      fetched r'.trace = fetched r.trace ++ [AddHttpPrefixToUrlIfNeeded url] ∧
      (∀ k, (mapGet r'.f.LinksToProcess k).isSome = (mapGet r.f.LinksToProcess k).isSome) ∧
      (∀ k, k ≠ url → mapGet r'.f.LinksToProcess k = mapGet r.f.LinksToProcess k) ∧
      ((mapGet r.f.LinksToProcess url).isSome → mapGet r'.f.LinksToProcess url = some true) ∧
      (mapGet r.f.LinksToProcess url = none → mapGet r'.f.LinksToProcess url = none) := by
  obtain ⟨e, he⟩ := crawl_failed_fetch w fuel r url depth_level h
  refine ⟨stateAtFetch r url depth_level, e, he, ?_⟩
  unfold stateAtFetch
  by_cases hk : (mapGet r.f.LinksToProcess url).isSome = true
  · simp only [Run.log, hk, if_true, createdFiles_append, createdDirs_append,
      writtenFiles_append, crawlCalls_append, fetched_append]
    refine ⟨by simp [createdFiles], by simp [createdDirs], by simp [writtenFiles],
      by simp [crawlCalls], by simp [fetched], ?_, ?_, ?_, ?_⟩
    · intro k
      by_cases hku : url = k
      · subst hku
        simp [mapGet_mapSet, hk]
      · simp [mapGet_mapSet, hku]
    · intro k hku
      exact mapGet_mapSet_ne _ _ _ _ (fun h' => hku h'.symm)
    · intro _
      exact mapGet_mapSet_self _ _ _
    · intro hn
      simp [hn] at hk
  · have hk' : (mapGet r.f.LinksToProcess url).isSome = false := by simpa using hk
    simp only [Run.log, hk', Bool.false_eq_true, if_false]
    refine ⟨by simp [createdFiles, createdFiles_append],
      by simp [createdDirs, createdDirs_append],
      by simp [writtenFiles, writtenFiles_append],
      by simp [crawlCalls, crawlCalls_append], by simp [fetched, fetched_append], ?_, ?_, ?_, ?_⟩
    · intro k
      simp
    · intro k _
      simp
    · intro hs
      simp at hs
    · intro hn
      simpa using hn

/-- C5 at the seed of `notFoundSite`: the crawl of `"example.com"` returns the
bad-status error, and the frontier still holds the seed only, now flagged. -/
theorem C5_failed_fetch_returns_error_witness :
    (notFoundSite.httpGet (AddHttpPrefixToUrlIfNeeded "example.com".toList) = none ∨
      ∃ status body, notFoundSite.httpGet (AddHttpPrefixToUrlIfNeeded "example.com".toList)
        = some (status, body) ∧ status ≠ 200) ∧
    ∃ r' e, Crawl notFoundSite (0 + 1)
        { f := NewFetcher "example.com".toList 1 "downloads".toList, trace := [] }
        "example.com".toList 1 = some (r', some e) ∧
      createdFiles r'.trace = createdFiles [] ∧
      createdDirs r'.trace = createdDirs [] ∧
      writtenFiles r'.trace = writtenFiles [] ∧
      crawlCalls r'.trace = crawlCalls [] ++ [("example.com".toList, 1)] ∧
      fetched r'.trace = fetched [] ++ [AddHttpPrefixToUrlIfNeeded "example.com".toList] ∧
      (∀ k, (mapGet r'.f.LinksToProcess k).isSome =
        (mapGet (NewFetcher "example.com".toList 1 "downloads".toList).LinksToProcess k).isSome) ∧
      (∀ k, k ≠ "example.com".toList → mapGet r'.f.LinksToProcess k =
        mapGet (NewFetcher "example.com".toList 1 "downloads".toList).LinksToProcess k) ∧
      ((mapGet (NewFetcher "example.com".toList 1 "downloads".toList).LinksToProcess
          "example.com".toList).isSome →
        mapGet r'.f.LinksToProcess "example.com".toList = some true) ∧
      (mapGet (NewFetcher "example.com".toList 1 "downloads".toList).LinksToProcess
          "example.com".toList = none →
        mapGet r'.f.LinksToProcess "example.com".toList = none) :=
  ⟨Or.inr ⟨404, [], rfl, by decide⟩,
    C5_failed_fetch_returns_error notFoundSite 0
      { f := NewFetcher "example.com".toList 1 "downloads".toList, trace := [] }
      "example.com".toList 1 (Or.inr ⟨404, [], rfl, by decide⟩)⟩

/-! ## Registration leaves the frontier's entries alone (C6) -/

theorem processGoQueryElement_links (f : Fetcher) (element : Option GoString) :
    (ProcessGoQueryElement f element).LinksToProcess = f.LinksToProcess ∨
    ∃ k, mapGet f.LinksToProcess k = none ∧
      (ProcessGoQueryElement f element).LinksToProcess = mapSet f.LinksToProcess k false := by
  cases element with
  | none => exact Or.inl rfl
  | some href0 =>
    rw [processGoQueryElement_some]
    unfold registerHref
    by_cases ht : sameSiteTest f.InitUrl href0 = true
    · by_cases hn : mapGet f.LinksToProcess (registeredKey f.InitUrl href0) = none
      · right
        exact ⟨registeredKey f.InitUrl href0, hn, by simp [ht, hn]⟩
      · left
        have : (mapGet f.LinksToProcess (registeredKey f.InitUrl href0)).isNone = false := by
          cases hv : mapGet f.LinksToProcess (registeredKey f.InitUrl href0) with
          | none => exact absurd hv hn
          | some v => rfl
        simp [ht, this]
    · left
      simp [ht]

/-- C6: for every fetcher state and every anchor (any `href` value, or none),
`ProcessGoQueryElement` keeps every entry of `LinksToProcess` with its flag (so
no key is removed and no `true` becomes `false`), adds at most one new key, and
a new key maps to `false`. -/
theorem C6_registration_frame (f : Fetcher) (element : Option GoString) :
    (∀ k v, mapGet f.LinksToProcess k = some v →
      mapGet (ProcessGoQueryElement f element).LinksToProcess k = some v) ∧
    (∀ k₁ k₂, mapGet f.LinksToProcess k₁ = none → mapGet f.LinksToProcess k₂ = none →
      mapGet (ProcessGoQueryElement f element).LinksToProcess k₁ ≠ none →
      mapGet (ProcessGoQueryElement f element).LinksToProcess k₂ ≠ none → k₁ = k₂) ∧
    (∀ k, mapGet f.LinksToProcess k = none →
      mapGet (ProcessGoQueryElement f element).LinksToProcess k ≠ none →
      mapGet (ProcessGoQueryElement f element).LinksToProcess k = some false) := by
  rcases processGoQueryElement_links f element with h | ⟨k0, hk0, h⟩
  · rw [h]
    exact ⟨fun _ _ hv => hv, fun _ _ h1 _ h1' _ => absurd h1 h1', fun _ h1 h1' => absurd h1 h1'⟩
  · rw [h]
    refine ⟨?_, ?_, ?_⟩
    · intro k v hv
      by_cases hk : k0 = k
      · subst hk
        rw [hk0] at hv
        cases hv
      · rw [mapGet_mapSet_ne _ _ _ _ hk]
        exact hv
    · intro k₁ k₂ h1 h2 h1' h2'
      have e1 : k0 = k₁ := by
        by_contra hne
        rw [mapGet_mapSet_ne _ _ _ _ hne] at h1'
        exact h1' h1
      have e2 : k0 = k₂ := by
        by_contra hne
        rw [mapGet_mapSet_ne _ _ _ _ hne] at h2'
        exact h2' h2
      rw [← e1, ← e2]
    · intro k h1 h1'
      by_cases hk : k0 = k
      · subst hk
        exact mapGet_mapSet_self _ _ _
      · rw [mapGet_mapSet_ne _ _ _ _ hk] at h1'
        exact absurd h1 h1'

/-! ## Fetching a page twice (C1) -/

/-- C1 fails on the code: with seed `"example.com"`, unbounded depth and the site
`loopSite`, whose home page links to `http://example.com` and to
`http://example.com/a`, the run fetches `http://example.com` twice, in the order
of insertion and in each of the six orders of the three keys.  The seed is a key
without scheme, the link to the home page is registered as the separate key
`http://example.com`, and both are fetched as `http://example.com`; the guard
`link != url` of line 61 skips the second key in the first call only.  No key is
added after the first page, so every loop of the run ranges over the same three
keys. -/
theorem C1_home_page_fetched_twice :
    (run loopSite 3 "example.com".toList (-1) "downloads".toList).map
        (fun x => (fetched x.1.trace, crawlCalls x.1.trace)) =
      some (["http://example.com".toList, "http://example.com/a".toList,
          "http://example.com".toList],
        [("example.com".toList, 1), ("http://example.com/a".toList, 2),
          ("http://example.com".toList, 3)]) ∧
    ∀ p ∈ loopSiteKeyOrders,
      (run { loopSite with rangeOrder := fun _ => p } 3 "example.com".toList (-1)
          "downloads".toList).map (fun x => fetched x.1.trace) =
        some ["http://example.com".toList, "http://example.com/a".toList,
          "http://example.com".toList] := by
  decide

/-! ## The seed `yandex.ru` (C3) -/

/-- C3 fails on the code: with seed `"yandex.ru"` the test of line 88 is false for
the subdomain link `"https://passport.yandex.ru"`, since neither
`"http://passport.yandex.ru"` nor `"passport.yandex.ru"` starts with `"yandex.ru"`,
and `ProcessGoQueryElement` leaves the frontier with the seed as its only key.
The link `"https://notyandex.ru"` is rejected as well, as the claim says. -/
theorem C3_subdomain_link_rejected :
    sameSiteTest "yandex.ru".toList "https://passport.yandex.ru".toList = false ∧
    (ProcessGoQueryElement (NewFetcher "yandex.ru".toList (-1) "downloads".toList)
      (some "https://passport.yandex.ru".toList)).LinksToProcess =
        [("yandex.ru".toList, false)] ∧
    mapGet (ProcessGoQueryElement (NewFetcher "yandex.ru".toList (-1) "downloads".toList)
      (some "https://passport.yandex.ru".toList)).LinksToProcess
        "https://passport.yandex.ru".toList = none ∧
    sameSiteTest "yandex.ru".toList "https://notyandex.ru".toList = false ∧
    (ProcessGoQueryElement (NewFetcher "yandex.ru".toList (-1) "downloads".toList)
      (some "https://notyandex.ru".toList)).LinksToProcess =
        [("yandex.ru".toList, false)] := by
  decide

/-! ## The file of the seed page (C7) -/

/-- C7 fails on the code: for the seed `"example.com"` and the destination
`"downloads"` the seed page is stored in the file `downloads/example.com`, not in
`downloads/example.com/index.html`.  `Crawl` adds the scheme to `url` before it
calls `CreateFileFromLink`, which compares `url` with the unchanged `InitUrl`. -/
theorem C7_seed_without_scheme :
    (run threeLinkSite 1 "example.com".toList 1 "downloads".toList).map
        (fun x => (createdDirs x.1.trace, createdFiles x.1.trace)) =
      some (["downloads".toList], ["downloads/example.com".toList]) ∧
    filepathJoin ["downloads".toList, StripScheme "example.com".toList, indexHtml] =
      "downloads/example.com/index.html".toList := by
  decide

/-! ## The file of another page (C8) -/

/-- C8 fails on the code: for `u = "http://example.com/a?x/b"`, seed
`"http://example.com"` and destination `"downloads"`, `CreateFileFromLink` creates
the directory `downloads/example.com/a?x` and opens the file
`downloads/example.com/a_x/b`: the replacement of `?` is applied to the whole
path, so the file is placed in a directory other than the one created. -/
theorem C8_directory_part_altered :
    (CreateFileFromLink threeLinkSite
        { f := NewFetcher "http://example.com".toList (-1) "downloads".toList, trace := [] }
        "http://example.com/a?x/b".toList).1.trace =
      [Event.mkdir "downloads/example.com/a?x".toList,
        Event.create "downloads/example.com/a_x/b".toList] := by
  decide

/-! ## The same-site test on links that carry a scheme (C2) -/

theorem sameSiteTest_schemed (InitUrl href : GoString)
    (h : HasPrefix href httpScheme = true ∨ HasPrefix href httpsScheme = true) :
    sameSiteTest InitUrl href =
      (IsSubfolder (ReplaceFirst InitUrl httpsScheme httpScheme)
          (ReplaceFirst href httpsScheme httpScheme) ||
        IsSubfolder (StripScheme InitUrl) (StripScheme href)) := by
  have hc : (!(HasPrefix href httpsScheme || HasPrefix href httpScheme)) = false := by
    rcases h with h | h <;> simp [h]
  simp only [sameSiteTest, resolvedTrimmedHref, hc, Bool.false_eq_true, if_false,
    stripScheme_eq_trim]

theorem processGoQueryElement_rejected (f : Fetcher) (href : GoString)
    (h : sameSiteTest f.InitUrl href = false) : ProcessGoQueryElement f (some href) = f := by
  simp only [processGoQueryElement_some, registerHref, h, Bool.false_eq_true, if_false]

theorem replaceFirst_of_not_contains (s old new : GoString) (h : Contains s old = false) :
    ReplaceFirst s old new = s := by
  induction s with
  | nil =>
    simp only [Contains] at h
    simp [ReplaceFirst, h]
  | cons c s ih =>
    simp only [Contains, Bool.or_eq_false_iff] at h
    simp [ReplaceFirst, h.1, ih h.2]

theorem contains_http_append (r : GoString) (h : Contains r httpsScheme = false) :
    Contains (httpScheme ++ r) httpsScheme = false := by
  have hp : ∀ (l : GoString) (c : Char), c ≠ 'h' → HasPrefix (c :: l) httpsScheme = false := by
    intro l c hc
    rw [Bool.eq_false_iff, Ne, hasPrefix_iff]
    rintro ⟨t, ht⟩
    simp [httpsScheme] at ht
    exact hc ht.1.symm
  have h0 : HasPrefix (httpScheme ++ r) httpsScheme = false := http_append_not_https r
  simp only [httpScheme, List.cons_append, List.nil_append] at h0 ⊢
  simp only [Contains, h0, Bool.false_or]
  rw [hp _ 't' (by decide), hp _ 't' (by decide), hp _ 'p' (by decide), hp _ ':' (by decide),
    hp _ '/' (by decide), hp _ '/' (by decide)]
  simpa using h

theorem replaceFirst_https_append (r : GoString) :
    ReplaceFirst (httpsScheme ++ r) httpsScheme httpScheme = httpScheme ++ r := by
  have h0 := hasPrefix_append_self httpsScheme r
  simp only [httpsScheme, List.cons_append, List.nil_append] at h0 ⊢
  simp [ReplaceFirst, h0]

theorem strip_decomp (x : GoString) :
    (HasPrefix x httpsScheme = true ∧ x = httpsScheme ++ StripScheme x) ∨
    (HasPrefix x httpsScheme = false ∧ HasPrefix x httpScheme = true ∧
      x = httpScheme ++ StripScheme x) ∨
    (HasPrefix x httpsScheme = false ∧ HasPrefix x httpScheme = false ∧ StripScheme x = x) := by
  rw [stripScheme_eq_trim]
  unfold TrimSchemeIfNeeded
  by_cases hs : HasPrefix x httpsScheme = true
  · left
    refine ⟨hs, ?_⟩
    rw [if_pos hs]
    obtain ⟨t, rfl⟩ := (hasPrefix_iff _ _).mp hs
    rw [List.drop_left]
  · have hs' : HasPrefix x httpsScheme = false := by simpa using hs
    right
    by_cases hp : HasPrefix x httpScheme = true
    · left
      refine ⟨hs', hp, ?_⟩
      rw [if_neg hs, if_pos hp]
      obtain ⟨t, rfl⟩ := (hasPrefix_iff _ _).mp hp
      rw [List.drop_left]
    · right
      have hp' : HasPrefix x httpScheme = false := by simpa using hp
      exact ⟨hs', hp', by rw [if_neg hs, if_neg hp]⟩

theorem replaceFirst_of_strip (x : GoString) (hx : Contains (StripScheme x) httpsScheme = false) :
    (HasPrefix x httpsScheme = true ∨ HasPrefix x httpScheme = true) →
      ReplaceFirst x httpsScheme httpScheme = httpScheme ++ StripScheme x := by
  intro hsch
  rcases strip_decomp x with ⟨_, e⟩ | ⟨_, _, e⟩ | ⟨h1, h2, _⟩
  · conv_lhs => rw [e]
    exact replaceFirst_https_append _
  · conv_lhs => rw [e]
    exact replaceFirst_of_not_contains _ _ _ (contains_http_append _ hx)
  · rcases hsch with h | h
    · rw [h1] at h; cases h
    · rw [h2] at h; cases h

theorem not_prefix_http_append (seed s : GoString) (hp : HasPrefix seed httpScheme = false)
    (hseed : ¬ seed <+: ['h', 't', 't', 'p', ':', '/']) :
    ¬ seed <+: httpScheme ++ s := by
  intro h
  by_cases hl : seed.length ≤ 6
  · apply hseed
    have h6 : ['h', 't', 't', 'p', ':', '/'] <+: httpScheme ++ s := by
      simp [httpScheme]
    exact List.prefix_of_prefix_length_le h h6 (by simpa using hl)
  · have h7 : httpScheme <+: seed :=
      List.prefix_of_prefix_length_le (List.prefix_append _ _) h (by simp [httpScheme]; omega)
    rw [← hasPrefix_iff, hp] at h7
    cases h7

theorem sameSiteTest_schemed_iff (seed href : GoString)
    (h : HasPrefix href httpScheme = true ∨ HasPrefix href httpsScheme = true)
    (hseed : seed = [] ∨ ¬ seed <+: ['h', 't', 't', 'p', ':', '/'])
    (hi : Contains (StripScheme seed) httpsScheme = false)
    (hh : Contains (StripScheme href) httpsScheme = false) :
    sameSiteTest seed href = true ↔ StripScheme seed <+: StripScheme href := by
  rw [sameSiteTest_schemed seed href h, Bool.or_eq_true, isSubfolder_iff, isSubfolder_iff]
  constructor
  · rintro (h1 | h2)
    · rw [replaceFirst_of_strip href hh h.symm] at h1
      rcases strip_decomp seed with ⟨hs, _⟩ | ⟨_, hp, _⟩ | ⟨hs, hp, e⟩
      · rw [replaceFirst_of_strip seed hi (Or.inl hs)] at h1
        exact (List.prefix_append_right_inj _).mp h1
      · rw [replaceFirst_of_strip seed hi (Or.inr hp)] at h1
        exact (List.prefix_append_right_inj _).mp h1
      · rw [e] at hi ⊢
        rw [replaceFirst_of_not_contains _ _ _ hi] at h1
        rcases hseed with rfl | hseed
        · exact List.nil_prefix
        · exact absurd h1 (not_prefix_http_append seed _ hp hseed)
    · exact h2
  · exact Or.inr

/-- C2, as stated, fails, in each of three ways.  For the seed
`"http://a.com/?u=https://b"` and the link `"http://a.com/?u=http://b"` the first
disjunct of line 88 holds (replacing the first `"https://"` of the seed gives the
link itself), so the link is registered, while the scheme-stripped link does not
start with the scheme-stripped seed.  The same happens for the seed
`"http://a/http://b"` with the link `"http://a/https://b"`, and for the seed
`"http"`, a prefix of every link that starts with `"http://"`, with the link
`"http://other.com"`. -/
theorem C2_counterexample :
    (HasPrefix "http://a.com/?u=http://b".toList httpScheme = true ∧
      sameSiteTest "http://a.com/?u=https://b".toList "http://a.com/?u=http://b".toList = true ∧
      HasPrefix (StripScheme "http://a.com/?u=http://b".toList)
        (StripScheme "http://a.com/?u=https://b".toList) = false ∧
      (ProcessGoQueryElement (NewFetcher "http://a.com/?u=https://b".toList (-1) [])
        (some "http://a.com/?u=http://b".toList)).LinksToProcess =
          [("http://a.com/?u=https://b".toList, false),
            ("http://a.com/?u=http://b".toList, false)]) ∧
    (HasPrefix "http://a/https://b".toList httpScheme = true ∧
      sameSiteTest "http://a/http://b".toList "http://a/https://b".toList = true ∧
      HasPrefix (StripScheme "http://a/https://b".toList)
        (StripScheme "http://a/http://b".toList) = false) ∧
    (HasPrefix "http://other.com".toList httpScheme = true ∧
      sameSiteTest "http".toList "http://other.com".toList = true ∧
      HasPrefix (StripScheme "http://other.com".toList) (StripScheme "http".toList) = false) := by
  decide

/-- C2, amended: for every fetcher whose seed `InitUrl` is empty or is not a prefix
of `"http:/"` and every `href` that starts with `"http://"` or `"https://"`, such
that neither `StripScheme(InitUrl)` nor `StripScheme(href)` contains `"https://"`,
the test of line 88 is true if and only if `StripScheme(href)` has
`StripScheme(InitUrl)` as a literal prefix; in particular an `href` whose
scheme-stripped form does not start with the scheme-stripped seed leaves the
fetcher, and so the frontier `LinksToProcess`, unchanged. -/
theorem C2_same_site_test (f : Fetcher) (href : GoString)
    (h : HasPrefix href httpScheme = true ∨ HasPrefix href httpsScheme = true)
    (hseed : f.InitUrl = [] ∨ ¬ f.InitUrl <+: "http:/".toList)
    (hi : Contains (StripScheme f.InitUrl) httpsScheme = false)
    (hh : Contains (StripScheme href) httpsScheme = false) :
    (sameSiteTest f.InitUrl href = true ↔ StripScheme f.InitUrl <+: StripScheme href) ∧
    (¬ StripScheme f.InitUrl <+: StripScheme href →
      ProcessGoQueryElement f (some href) = f ∧
        (ProcessGoQueryElement f (some href)).LinksToProcess = f.LinksToProcess) := by
  have hiff := sameSiteTest_schemed_iff f.InitUrl href h hseed hi hh
  refine ⟨hiff, ?_⟩
  intro h1
  have hf : sameSiteTest f.InitUrl href = false := by
    rw [Bool.eq_false_iff]
    exact fun ht => h1 (hiff.mp ht)
  have := processGoQueryElement_rejected f href hf
  exact ⟨this, by rw [this]⟩

/-- C2, amended, at seed `"example.com"` and link `"https://example.com/a"`. -/
theorem C2_same_site_test_witness :
    ((HasPrefix "https://example.com/a".toList httpScheme = true ∨
        HasPrefix "https://example.com/a".toList httpsScheme = true) ∧
      ((NewFetcher "example.com".toList (-1) []).InitUrl = [] ∨
        ¬ (NewFetcher "example.com".toList (-1) []).InitUrl <+: "http:/".toList) ∧
      Contains (StripScheme (NewFetcher "example.com".toList (-1) []).InitUrl) httpsScheme = false ∧
      Contains (StripScheme "https://example.com/a".toList) httpsScheme = false) ∧
    ((sameSiteTest (NewFetcher "example.com".toList (-1) []).InitUrl "https://example.com/a".toList = true ↔
        StripScheme (NewFetcher "example.com".toList (-1) []).InitUrl <+: StripScheme "https://example.com/a".toList) ∧
      (¬ StripScheme (NewFetcher "example.com".toList (-1) []).InitUrl <+: StripScheme "https://example.com/a".toList →
        ProcessGoQueryElement (NewFetcher "example.com".toList (-1) []) (some "https://example.com/a".toList) = (NewFetcher "example.com".toList (-1) []) ∧
          (ProcessGoQueryElement (NewFetcher "example.com".toList (-1) []) (some "https://example.com/a".toList)).LinksToProcess =
            (NewFetcher "example.com".toList (-1) []).LinksToProcess)) :=
  ⟨⟨Or.inr (by decide), Or.inr (by decide), by decide, by decide⟩,
    C2_same_site_test (NewFetcher "example.com".toList (-1) []) "https://example.com/a".toList
      (Or.inr (by decide)) (Or.inr (by decide)) (by decide) (by decide)⟩

/-! ## Relative links (C9) -/

theorem trimLeft_head (s t : GoString) : TrimLeft s '/' ≠ '/' :: t := by
  induction s with
  | nil => simp [TrimLeft]
  | cons c s ih =>
    unfold TrimLeft at ih ⊢
    rw [List.dropWhile_cons]
    split
    · exact ih
    · rename_i hc
      intro h
      simp only [List.cons.injEq] at h
      simp [h.1] at hc

theorem http_append_slash (I s0 : GoString) (hI : HasPrefix I httpScheme = false)
    (hne : I ≠ ['h', 't', 't', 'p', ':', '/']) (hs0 : ∀ t, s0 ≠ '/' :: t) :
    HasPrefix (I ++ '/' :: s0) httpScheme = false := by
  rw [Bool.eq_false_iff, Ne, hasPrefix_iff] at hI ⊢
  intro hp
  apply hI
  rcases I with _ | ⟨a1, _ | ⟨a2, _ | ⟨a3, _ | ⟨a4, _ | ⟨a5, _ | ⟨a6, _ | ⟨a7, I⟩⟩⟩⟩⟩⟩⟩ <;>
    simp [httpScheme] at hp hne ⊢
  · obtain ⟨_, _, _, _, _, t, ht⟩ := hp
    exact hs0 t (by simpa using ht.symm)
  · obtain ⟨rfl, rfl, rfl, rfl, rfl, rfl⟩ := hp
    exact hne rfl rfl rfl rfl rfl rfl
  · exact hp

theorem https_append_slash (I s0 : GoString) (hI : HasPrefix I httpsScheme = false)
    (hne : I ≠ ['h', 't', 't', 'p', 's', ':', '/']) (hs0 : ∀ t, s0 ≠ '/' :: t) :
    HasPrefix (I ++ '/' :: s0) httpsScheme = false := by
  rw [Bool.eq_false_iff, Ne, hasPrefix_iff] at hI ⊢
  intro hp
  apply hI
  rcases I with _ | ⟨a1, _ | ⟨a2, _ | ⟨a3, _ | ⟨a4, _ | ⟨a5, _ | ⟨a6, _ | ⟨a7, _ | ⟨a8, I⟩⟩⟩⟩⟩⟩⟩⟩ <;>
    simp [httpsScheme] at hp hne ⊢
  · obtain ⟨_, _, _, _, _, _, t, ht⟩ := hp
    exact hs0 t (by simpa using ht.symm)
  · obtain ⟨rfl, rfl, rfl, rfl, rfl, rfl, rfl⟩ := hp
    exact hne rfl rfl rfl rfl rfl rfl rfl
  · exact hp

theorem hasPrefix_append_of (I s pre : GoString) (h : HasPrefix I pre = true) :
    HasPrefix (I ++ s) pre = true := by
  rw [hasPrefix_iff] at h ⊢
  exact h.trans (List.prefix_append I s)

theorem drop_append_of_hasPrefix (I s pre : GoString) (h : HasPrefix I pre = true) :
    (I ++ s).drop pre.length = I.drop pre.length ++ s := by
  rw [hasPrefix_iff] at h
  exact List.drop_append_of_le_length h.length_le

theorem trim_append_slash (I s0 : GoString) (h6 : I ≠ ['h', 't', 't', 'p', ':', '/'])
    (h7 : I ≠ ['h', 't', 't', 'p', 's', ':', '/']) (hs0 : ∀ t, s0 ≠ '/' :: t) :
    TrimSchemeIfNeeded (I ++ '/' :: s0) = TrimSchemeIfNeeded I ++ '/' :: s0 := by
  unfold TrimSchemeIfNeeded
  by_cases hs : HasPrefix I httpsScheme = true
  · rw [if_pos hs, if_pos (hasPrefix_append_of _ _ _ hs), drop_append_of_hasPrefix _ _ _ hs]
  · have hs' : HasPrefix I httpsScheme = false := by simpa using hs
    have hs'' := https_append_slash I s0 hs' h7 hs0
    by_cases hp : HasPrefix I httpScheme = true
    · simp only [hs', hs'', Bool.false_eq_true, if_false, if_pos hp,
        if_pos (hasPrefix_append_of _ _ _ hp), drop_append_of_hasPrefix _ _ _ hp]
    · have hp' : HasPrefix I httpScheme = false := by simpa using hp
      have hp'' := http_append_slash I s0 hp' h6 hs0
      simp only [hs', hs'', hp', hp'', Bool.false_eq_true, if_false]

theorem addHttp_append_slash (I s0 : GoString) (h6 : I ≠ ['h', 't', 't', 'p', ':', '/'])
    (h7 : I ≠ ['h', 't', 't', 'p', 's', ':', '/']) (hs0 : ∀ t, s0 ≠ '/' :: t) :
    AddHttpPrefixToUrlIfNeeded (I ++ '/' :: s0) = AddHttpPrefixToUrlIfNeeded I ++ '/' :: s0 := by
  unfold AddHttpPrefixToUrlIfNeeded
  by_cases hs : HasPrefix I httpsScheme = true
  · simp [hs, hasPrefix_append_of _ _ _ hs]
  · have hs' : HasPrefix I httpsScheme = false := by simpa using hs
    have hs'' := https_append_slash I s0 hs' h7 hs0
    by_cases hp : HasPrefix I httpScheme = true
    · simp [hp, hasPrefix_append_of _ _ _ hp]
    · have hp' : HasPrefix I httpScheme = false := by simpa using hp
      have hp'' := http_append_slash I s0 hp' h6 hs0
      simp [hs', hs'', hp', hp'']

theorem resolvedHref_relative (InitUrl h : GoString)
    (h1 : HasPrefix h httpScheme = false) (h2 : HasPrefix h httpsScheme = false)
    (h3 : Contains (TrimLeft h '/') (StripScheme InitUrl) = false) :
    resolvedHref InitUrl h =
      if TrimLeft h '/' = [] then InitUrl else InitUrl ++ '/' :: TrimLeft h '/' := by
  rw [stripScheme_eq_trim] at h3
  have hh := trimLeft_head h
  unfold resolvedHref
  simp only [h1, h2, h3, Bool.or_self, Bool.not_false, if_true]
  cases hx : TrimLeft h '/' with
  | nil => simp
  | cons c t =>
    have hc : c ≠ '/' := by
      intro hc
      subst hc
      exact hh t hx
    simp [hc]

/-- C9, as stated, fails: for the seed `"http:/"` and the link `"x"` the flat
concatenation is `"http://x"`, whose scheme-stripped form `"x"` does not start
with the seed, so the link is judged off-site and the frontier keeps the seed as
its only key. -/
theorem C9_counterexample :
    HasPrefix "x".toList httpScheme = false ∧ HasPrefix "x".toList httpsScheme = false ∧
    Contains (TrimLeft "x".toList '/') (StripScheme "http:/".toList) = false ∧
    sameSiteTest "http:/".toList "x".toList = false ∧
    (ProcessGoQueryElement (NewFetcher "http:/".toList (-1) []) (some "x".toList)).LinksToProcess
      = [("http:/".toList, false)] ∧
    mapGet (ProcessGoQueryElement (NewFetcher "http:/".toList (-1) [])
        (some "x".toList)).LinksToProcess
      (TrimRight (AddHttpPrefixToUrlIfNeeded ("http:/".toList ++ '/' :: TrimLeft "x".toList '/'))
        '/') = none := by
  decide

/-- C9, amended: for every fetcher whose seed `InitUrl` is neither `"http:/"` nor
`"https:/"` and every `href` `h` that starts with neither `"http://"` nor
`"https://"` and whose form `h' = TrimLeft(h, "/")` does not contain
`StripScheme(InitUrl)`: `ProcessGoQueryElement` resolves `h` to `InitUrl` when
`h'` is empty and to `InitUrl + "/" + h'` otherwise, judges it same-site, and
registers it under the key
`TrimRight(AddHttpPrefixToUrlIfNeeded(InitUrl + "/" + h'), "/")`, which is a key
of the frontier afterwards. -/
theorem C9_relative_href (f : Fetcher) (h : GoString)
    (h1 : HasPrefix h httpScheme = false) (h2 : HasPrefix h httpsScheme = false)
    (h3 : Contains (TrimLeft h '/') (StripScheme f.InitUrl) = false)
    (h6 : f.InitUrl ≠ "http:/".toList) (h7 : f.InitUrl ≠ "https:/".toList) :
    resolvedHref f.InitUrl h =
      (if TrimLeft h '/' = [] then f.InitUrl else f.InitUrl ++ '/' :: TrimLeft h '/') ∧
    sameSiteTest f.InitUrl h = true ∧
    registeredKey f.InitUrl h =
      TrimRight (AddHttpPrefixToUrlIfNeeded (f.InitUrl ++ '/' :: TrimLeft h '/')) '/' ∧
    mapGet (ProcessGoQueryElement f (some h)).LinksToProcess
      (TrimRight (AddHttpPrefixToUrlIfNeeded (f.InitUrl ++ '/' :: TrimLeft h '/')) '/')
        ≠ none := by
  have h6' : f.InitUrl ≠ ['h', 't', 't', 'p', ':', '/'] := h6
  have h7' : f.InitUrl ≠ ['h', 't', 't', 'p', 's', ':', '/'] := h7
  have hres := resolvedHref_relative f.InitUrl h h1 h2 h3
  have hh := trimLeft_head h
  have htest : sameSiteTest f.InitUrl h = true := by
    have hc : (!(HasPrefix h httpsScheme || HasPrefix h httpScheme)) = true := by
      simp [h1, h2]
    simp only [sameSiteTest, resolvedTrimmedHref, hc, if_true, Bool.or_eq_true]
    right
    rw [isSubfolder_iff, hres]
    split
    · exact List.prefix_refl _
    · rw [trim_append_slash _ _ h6' h7' hh]
      exact List.prefix_append _ _
  have hkey : registeredKey f.InitUrl h =
      TrimRight (AddHttpPrefixToUrlIfNeeded (f.InitUrl ++ '/' :: TrimLeft h '/')) '/' := by
    unfold registeredKey
    rw [hres]
    split
    · rename_i he
      rw [he, addHttp_append_slash _ _ h6' h7' (by simp)]
      unfold TrimRight
      rw [List.rdropWhile_concat_pos]
      simp
    · rfl
  refine ⟨hres, htest, hkey, ?_⟩
  rw [← hkey, processGoQueryElement_some]
  unfold registerHref
  simp only [htest, if_true]
  split
  · simp only [mapGet_mapSet_self]
    simp
  · rename_i hn
    intro hnone
    simp [hnone] at hn

/-- C9, amended, at seed `"example.com"` and link `"/a/b/"`, which is registered
under the key `"http://example.com/a/b"`. -/
theorem C9_relative_href_witness :
    (HasPrefix "/a/b/".toList httpScheme = false ∧
      HasPrefix "/a/b/".toList httpsScheme = false ∧
      Contains (TrimLeft "/a/b/".toList '/')
        (StripScheme (NewFetcher "example.com".toList (-1) []).InitUrl) = false ∧
      (NewFetcher "example.com".toList (-1) []).InitUrl ≠ "http:/".toList ∧
      (NewFetcher "example.com".toList (-1) []).InitUrl ≠ "https:/".toList) ∧
    (resolvedHref (NewFetcher "example.com".toList (-1) []).InitUrl "/a/b/".toList =
        (if TrimLeft "/a/b/".toList '/' = [] then
          (NewFetcher "example.com".toList (-1) []).InitUrl
        else
          (NewFetcher "example.com".toList (-1) []).InitUrl ++
            '/' :: TrimLeft "/a/b/".toList '/') ∧
      sameSiteTest (NewFetcher "example.com".toList (-1) []).InitUrl "/a/b/".toList = true ∧
      registeredKey (NewFetcher "example.com".toList (-1) []).InitUrl "/a/b/".toList =
        TrimRight (AddHttpPrefixToUrlIfNeeded
          ((NewFetcher "example.com".toList (-1) []).InitUrl ++
            '/' :: TrimLeft "/a/b/".toList '/')) '/' ∧
      mapGet (ProcessGoQueryElement (NewFetcher "example.com".toList (-1) [])
          (some "/a/b/".toList)).LinksToProcess
        (TrimRight (AddHttpPrefixToUrlIfNeeded
          ((NewFetcher "example.com".toList (-1) []).InitUrl ++
            '/' :: TrimLeft "/a/b/".toList '/')) '/') ≠ none) :=
  ⟨by decide,
    C9_relative_href (NewFetcher "example.com".toList (-1) []) "/a/b/".toList
      (by decide) (by decide) (by decide) (by decide) (by decide)⟩

/-! ## A crawl with maximal depth 1 (C4) -/

theorem crawl_without_recursion (w : World) (fuel : Nat) (r : Run) (url body : GoString)
    (depth_level : Int)
    (hget : w.httpGet (AddHttpPrefixToUrlIfNeeded url) = some (200, body))
    (hdepth : ¬ ((stateAtLoop w r url depth_level body).f.MaxDepth ≤ 0 ∨
      depth_level < (stateAtLoop w r url depth_level body).f.MaxDepth)) :
    Crawl w (fuel + 1) r url depth_level =
      some (stateAtLoop w r url depth_level body, none) := by
  unfold stateAtLoop stateAtFetch at hdepth
  simp only [Crawl, hget, ne_eq, not_true_eq_false, if_false]
  rw [if_neg hdepth]
  rfl

theorem createFileFromLink_state (w : World) (r : Run) (url : GoString) :
    (CreateFileFromLink w r url).1.f = r.f ∧
    fetched (CreateFileFromLink w r url).1.trace = fetched r.trace ∧
    crawlCalls (CreateFileFromLink w r url).1.trace = crawlCalls r.trace ∧
    (CreateFileFromLink w r url).2 =
      if w.createOk (filePathFromLink r.f url).2 then some (filePathFromLink r.f url).2
      else none := by
  rw [createFileFromLink_eq]
  simp [Run.log, fetched_append, crawlCalls_append, fetched, crawlCalls]

theorem copyToFile_trace (w : World) (r : Run) (output : Option GoString) (body : GoString) :
    fetched (CopyToFileAndProcessLinks w r output body).1.trace = fetched r.trace ∧
    crawlCalls (CopyToFileAndProcessLinks w r output body).1.trace = crawlCalls r.trace := by
  unfold CopyToFileAndProcessLinks
  cases output with
  | none => exact ⟨rfl, rfl⟩
  | some path =>
    simp only
    split
    · split <;> simp [Run.log, fetched_append, crawlCalls_append, fetched, crawlCalls]
    · exact ⟨rfl, rfl⟩

theorem copyToFile_fetcher (w : World) (r : Run) (output : Option GoString)
    (body : GoString) (as : List (Option GoString)) (has : w.anchors body = some as) :
    (CopyToFileAndProcessLinks w r output body).1.f =
      if (output.map w.writeOk) = some true then processAnchors r.f as else r.f := by
  unfold CopyToFileAndProcessLinks
  cases output with
  | none => simp
  | some path =>
    by_cases hw : w.writeOk path = true
    · simp [hw, has, Run.log]
    · have hw' : w.writeOk path = false := by simpa using hw
      simp [hw']

theorem filePathFromLink_congr (f g : Fetcher) (url : GoString)
    (h1 : f.InitUrl = g.InitUrl) (h2 : f.Destination = g.Destination) :
    filePathFromLink f url = filePathFromLink g url := by
  unfold filePathFromLink
  rw [h1, h2]

theorem stateAtFetch_newFetcher (seed dest : GoString) (max_depth : Int) :
    (stateAtFetch { f := NewFetcher seed max_depth dest, trace := [] } seed 1).f =
      { NewFetcher seed max_depth dest with LinksToProcess := [(seed, true)] } ∧
    (stateAtFetch { f := NewFetcher seed max_depth dest, trace := [] } seed 1).trace =
      [Event.crawl seed 1, Event.fetch (AddHttpPrefixToUrlIfNeeded seed)] := by
  simp [stateAtFetch, NewFetcher, Run.log, mapSet, mapGet]

theorem processGoQueryElement_fields (f : Fetcher) (e : Option GoString) :
    (ProcessGoQueryElement f e).InitUrl = f.InitUrl ∧
    (ProcessGoQueryElement f e).MaxDepth = f.MaxDepth ∧
    (ProcessGoQueryElement f e).Destination = f.Destination := by
  cases e with
  | none => exact ⟨rfl, rfl, rfl⟩
  | some h =>
    rw [processGoQueryElement_some]
    unfold registerHref
    simp only
    split
    · split <;> exact ⟨rfl, rfl, rfl⟩
    · exact ⟨rfl, rfl, rfl⟩

theorem processAnchors_fields (as : List (Option GoString)) (f : Fetcher) :
    (processAnchors f as).InitUrl = f.InitUrl ∧
    (processAnchors f as).MaxDepth = f.MaxDepth ∧
    (processAnchors f as).Destination = f.Destination := by
  induction as generalizing f with
  | nil => exact ⟨rfl, rfl, rfl⟩
  | cons e as ih =>
    have h1 := processGoQueryElement_fields f e
    have h2 := ih (ProcessGoQueryElement f e)
    simp only [processAnchors, List.foldl_cons] at h2 ⊢
    exact ⟨h2.1.trans h1.1, h2.2.1.trans h1.2.1, h2.2.2.trans h1.2.2⟩

theorem processGoQueryElement_keys (f : Fetcher) (e : Option GoString) (k : GoString) :
    mapGet (ProcessGoQueryElement f e).LinksToProcess k ≠ none ↔
      (mapGet f.LinksToProcess k ≠ none ∨
        ∃ h, e = some h ∧ sameSiteTest f.InitUrl h = true ∧ k = registeredKey f.InitUrl h) := by
  cases e with
  | none => simp [ProcessGoQueryElement]
  | some h =>
    rw [processGoQueryElement_some]
    unfold registerHref
    by_cases ht : sameSiteTest f.InitUrl h = true
    · by_cases hn : mapGet f.LinksToProcess (registeredKey f.InitUrl h) = none
      · simp only [ht, hn, Option.isNone_none, if_true, mapGet_mapSet]
        by_cases hk : registeredKey f.InitUrl h = k
        · simp [← hk, ht]
        · have hk' : ¬ k = registeredKey f.InitUrl h := fun h' => hk h'.symm
          simp [hk, hk']
      · have hn' : (mapGet f.LinksToProcess (registeredKey f.InitUrl h)).isNone = false := by
          cases hv : mapGet f.LinksToProcess (registeredKey f.InitUrl h) with
          | none => exact absurd hv hn
          | some v => rfl
        simp only [ht, hn', if_true, Bool.false_eq_true, if_false]
        constructor
        · exact Or.inl
        · rintro (h' | ⟨h0, he, _, hk⟩)
          · exact h'
          · cases he
            rw [hk]
            exact hn
    · have ht' : sameSiteTest f.InitUrl h = false := by simpa using ht
      simp [ht']

theorem processAnchors_keys (as : List (Option GoString)) (f : Fetcher) (k : GoString) :
    mapGet (processAnchors f as).LinksToProcess k ≠ none ↔
      (mapGet f.LinksToProcess k ≠ none ∨
        ∃ h, some h ∈ as ∧ sameSiteTest f.InitUrl h = true ∧ k = registeredKey f.InitUrl h) := by
  induction as generalizing f with
  | nil => simp [processAnchors]
  | cons e as ih =>
    have h2 := ih (ProcessGoQueryElement f e)
    simp only [processAnchors, List.foldl_cons] at h2 ⊢
    rw [h2, processGoQueryElement_keys, (processGoQueryElement_fields f e).1]
    constructor
    · rintro ((h' | ⟨h, he, ht, hk⟩) | ⟨h, hm, ht, hk⟩)
      · exact Or.inl h'
      · exact Or.inr ⟨h, by simp [he], ht, hk⟩
      · exact Or.inr ⟨h, by simp [hm], ht, hk⟩
    · rintro (h' | ⟨h, hm, ht, hk⟩)
      · exact Or.inl (Or.inl h')
      · rcases List.mem_cons.mp hm with he | hm'
        · exact Or.inl (Or.inr ⟨h, he.symm, ht, hk⟩)
        · exact Or.inr ⟨h, hm', ht, hk⟩

theorem trimRight_keep (X Z : GoString) (hX : X.getLast? ≠ some '/') :
    ∃ Z', TrimRight (X ++ Z) '/' = X ++ Z' := by
  induction Z using List.reverseRecOn with
  | nil =>
    refine ⟨[], ?_⟩
    rw [List.append_nil]
    unfold TrimRight
    rw [List.rdropWhile_eq_self_iff]
    intro hl hp
    apply hX
    rw [List.getLast?_eq_getLast _ hl]
    simpa using hp
  | append_singleton Z0 z ih =>
    by_cases hz : z = '/'
    · obtain ⟨Z', hZ'⟩ := ih
      refine ⟨Z', ?_⟩
      unfold TrimRight at hZ' ⊢
      rw [← List.append_assoc, List.rdropWhile_concat_pos _ _ _ (by simpa using hz)]
      exact hZ'
    · refine ⟨Z0 ++ [z], ?_⟩
      unfold TrimRight
      rw [← List.append_assoc, List.rdropWhile_concat_neg _ _ _ (by simpa using hz)]

theorem addHttp_decomp (R : GoString) :
    AddHttpPrefixToUrlIfNeeded R = httpScheme ++ StripScheme R ∨
      AddHttpPrefixToUrlIfNeeded R = httpsScheme ++ StripScheme R := by
  unfold AddHttpPrefixToUrlIfNeeded
  rcases strip_decomp R with ⟨hs, e⟩ | ⟨hs, hp, e⟩ | ⟨hs, hp, e⟩
  · right
    simp only [hs, Bool.not_true, Bool.false_and, Bool.false_eq_true, if_false]
    exact e
  · left
    simp only [hs, hp, Bool.not_true, Bool.and_false, Bool.false_eq_true, if_false]
    exact e
  · left
    simp only [hs, hp, Bool.not_false, Bool.and_self, if_true, e]

theorem strip_getLast (seed : GoString) (hne : StripScheme seed ≠ []) :
    (StripScheme seed).getLast? = seed.getLast? := by
  rcases strip_decomp seed with ⟨_, e⟩ | ⟨_, _, e⟩ | ⟨_, _, e⟩
  · conv_rhs => rw [e]
    exact (List.getLast?_append_of_ne_nil _ hne).symm
  · conv_rhs => rw [e]
    exact (List.getLast?_append_of_ne_nil _ hne).symm
  · rw [e]

theorem stripped_key_sameSite (seed R : GoString) (hlast : seed.getLast? ≠ some '/')
    (hR : StripScheme seed <+: StripScheme R) :
    StripScheme seed <+: StripScheme (TrimRight (AddHttpPrefixToUrlIfNeeded R) '/') := by
  by_cases hS : StripScheme seed = []
  · rw [hS]
    exact List.nil_prefix
  · obtain ⟨Z, hZ⟩ := hR
    have hS' : (StripScheme seed).getLast? ≠ some '/' := by
      rw [strip_getLast seed hS]
      exact hlast
    rcases addHttp_decomp R with e | e
    · have hX : (httpScheme ++ StripScheme seed).getLast? ≠ some '/' := by
        rw [List.getLast?_append_of_ne_nil _ hS]
        exact hS'
      obtain ⟨Z', hZ'⟩ := trimRight_keep (httpScheme ++ StripScheme seed) Z hX
      rw [e, ← hZ, ← List.append_assoc, hZ', List.append_assoc, stripScheme_eq_trim
        (httpScheme ++ _), trim_http_append]
      exact List.prefix_append _ _
    · have hX : (httpsScheme ++ StripScheme seed).getLast? ≠ some '/' := by
        rw [List.getLast?_append_of_ne_nil _ hS]
        exact hS'
      obtain ⟨Z', hZ'⟩ := trimRight_keep (httpsScheme ++ StripScheme seed) Z hX
      rw [e, ← hZ, ← List.append_assoc, hZ', List.append_assoc, stripScheme_eq_trim
        (httpsScheme ++ _), trim_https_append]
      exact List.prefix_append _ _

theorem contains_of_isPrefix (s sub : GoString) (h : sub <+: s) : Contains s sub = true := by
  cases s with
  | nil => simp only [Contains]; exact (hasPrefix_iff _ _).mpr h
  | cons c s => simp only [Contains, Bool.or_eq_true]; exact Or.inl ((hasPrefix_iff _ _).mpr h)

theorem sameSiteTest_resolved (seed h : GoString)
    (hhead : seed.head? ≠ some '/')
    (hseed : seed = [] ∨ ¬ seed <+: ['h', 't', 't', 'p', ':', '/'])
    (hi : Contains (StripScheme seed) httpsScheme = false)
    (hh : Contains (StripScheme h) httpsScheme = false)
    (ht : sameSiteTest seed h = true) :
    StripScheme seed <+: StripScheme (resolvedHref seed h) := by
  by_cases hsch : HasPrefix h httpScheme = true ∨ HasPrefix h httpsScheme = true
  · have hr : resolvedHref seed h = h := by
      unfold resolvedHref
      rcases hsch with hs | hs <;> simp [hs]
    rw [hr]
    exact (sameSiteTest_schemed_iff seed h hsch hseed hi hh).mp ht
  · have h1 : HasPrefix h httpScheme = false := by
      rw [Bool.eq_false_iff]; exact fun h' => hsch (Or.inl h')
    have h2 : HasPrefix h httpsScheme = false := by
      rw [Bool.eq_false_iff]; exact fun h' => hsch (Or.inr h')
    have hc : (!(HasPrefix h httpsScheme || HasPrefix h httpScheme)) = true := by
      simp [h1, h2]
    simp only [sameSiteTest, resolvedTrimmedHref, hc, if_true, Bool.or_eq_true,
      isSubfolder_iff] at ht
    rw [stripScheme_eq_trim, stripScheme_eq_trim]
    rcases ht with d1 | d2
    · have hsh : StripScheme h = h := by
        rcases strip_decomp h with ⟨hs, _⟩ | ⟨_, hp, _⟩ | ⟨_, _, e⟩
        · rw [h2] at hs; cases hs
        · rw [h1] at hp; cases hp
        · exact e
      rw [hsh] at hh
      rw [replaceFirst_of_not_contains h _ _ hh] at d1
      rcases strip_decomp seed with ⟨hs, _⟩ | ⟨_, hp, _⟩ | ⟨hs, hp, e⟩
      · rw [replaceFirst_of_strip seed hi (Or.inl hs)] at d1
        have : HasPrefix h httpScheme = true :=
          (hasPrefix_iff _ _).mpr ((List.prefix_append _ _).trans d1)
        rw [h1] at this; cases this
      · rw [replaceFirst_of_strip seed hi (Or.inr hp)] at d1
        have : HasPrefix h httpScheme = true :=
          (hasPrefix_iff _ _).mpr ((List.prefix_append _ _).trans d1)
        rw [h1] at this; cases this
      · rw [e] at hi
        rw [replaceFirst_of_not_contains seed _ _ hi] at d1
        have hts : TrimSchemeIfNeeded seed = seed := by
          rw [← stripScheme_eq_trim]; exact e
        rw [hts]
        cases seed with
        | nil => exact List.nil_prefix
        | cons c t =>
          have hc' : c ≠ '/' := by
            intro hc'
            apply hhead
            simp [hc']
          obtain ⟨z, hz⟩ := d1
          have htl : TrimLeft h '/' = h := by
            rw [← hz]
            unfold TrimLeft
            simp [hc']
          have hcont : Contains h (c :: t) = true := contains_of_isPrefix _ _ ⟨z, hz⟩
          have hr : resolvedHref (c :: t) h = h := by
            unfold resolvedHref
            simp only [h1, h2, Bool.or_self, Bool.not_false, if_true, htl, hts, hcont,
              Bool.not_true, Bool.false_eq_true, if_false]
          rw [hr, ← stripScheme_eq_trim, hsh]
          exact ⟨z, hz⟩
    · exact d2

theorem registeredKey_sameSite (seed h : GoString)
    (hlast : seed.getLast? ≠ some '/') (hhead : seed.head? ≠ some '/')
    (hseed : seed = [] ∨ ¬ seed <+: ['h', 't', 't', 'p', ':', '/'])
    (hi : Contains (StripScheme seed) httpsScheme = false)
    (hh : Contains (StripScheme h) httpsScheme = false)
    (ht : sameSiteTest seed h = true) :
    StripScheme seed <+: StripScheme (registeredKey seed h) :=
  stripped_key_sameSite seed _ hlast (sameSiteTest_resolved seed h hhead hseed hi hh ht)

/-- C4, as stated, fails.  On `threeLinkSite`, whose home page links to
`http://example.com/a`, `http://example.com/b` and `http://other.com`, the crawl
of the seed `"http://example.com"` with maximal depth 1 fetches the seed only; the
two same-site links are registered and left unvisited.  The off-site URL can be a
key: for the seed `"http://example.com/"` and the anchors `http://example.com/`,
`http://example.com/b` and `http://example.com`, the last is off-site (its
scheme-stripped form does not start with `example.com/`) and is rejected, but the
first is registered without its trailing `/`, under the key `http://example.com`;
and for the seed `"http"` the off-site anchor `http://other.com` passes the test
of line 88 and is registered. -/
theorem C4_counterexample :
    (run threeLinkSite 5 "http://example.com".toList 1 "downloads".toList).map
        (fun x => (fetched x.1.trace, x.1.f.LinksToProcess)) =
      some (["http://example.com".toList],
        [("http://example.com".toList, true), ("http://example.com/a".toList, false),
          ("http://example.com/b".toList, false)]) ∧
    (HasPrefix (StripScheme "http://example.com".toList)
        (StripScheme "http://example.com/".toList) = false ∧
      (run (siteWithLinks "http://example.com/".toList
          [some "http://example.com/".toList, some "http://example.com/b".toList,
            some "http://example.com".toList])
          5 "http://example.com/".toList 1 "downloads".toList).map
        (fun x => (fetched x.1.trace, x.1.f.LinksToProcess)) =
      some (["http://example.com/".toList],
        [("http://example.com/".toList, true), ("http://example.com".toList, false),
          ("http://example.com/b".toList, false)])) ∧
    (HasPrefix (StripScheme "http://other.com".toList) (StripScheme "http".toList) = false ∧
      (run (siteWithLinks "http://http".toList
          [some "http/a".toList, some "http/b".toList, some "http://other.com".toList])
          5 "http".toList 1 "downloads".toList).map
        (fun x => (fetched x.1.trace, x.1.f.LinksToProcess)) =
      some (["http://http".toList],
        [("http".toList, true), ("http://http/a".toList, false),
          ("http://http/b".toList, false), ("http://other.com".toList, false)])) := by
  refine ⟨?_, ⟨?_, ?_⟩, ?_, ?_⟩ <;> decide

/-- C4, amended: for a crawl started as the program starts it
(`NewFetcher(seed, 1, dest)` followed by `Crawl(seed, 1)`) whose seed fetch
returns status 200 and whose seed page has the anchors `as` (in particular three
anchors, two same-site and one off-site), where the seed neither starts nor ends
with `/`, is empty or not a prefix of `"http:/"`, and neither `StripScheme(seed)`
nor the scheme-stripped `href` of an anchor contains `"https://"`: `Crawl` returns
`nil` for every positive bound on the nesting, the only URL fetched is
`AddHttpPrefixToUrlIfNeeded(seed)` and the only invocation of `Crawl` is the first
one (`depth_level = 1` is not below `MaxDepth = 1`, so no same-site page is
fetched); every key `k` of the frontier has `StripScheme(seed)` as a literal prefix
of `StripScheme(k)`, and an off-site URL `c`, one whose `StripScheme(c)` does not
start with `StripScheme(seed)`, is not a key of the frontier.  Keys are never
removed, so `c` is a key at no point of the run. -/
theorem C4_depth_one (w : World) (fuel : Nat) (seed dest body : GoString)
    (as : List (Option GoString)) (c : GoString)
    (hget : w.httpGet (AddHttpPrefixToUrlIfNeeded seed) = some (200, body))
    (has : w.anchors body = some as)
    (hlast : seed.getLast? ≠ some '/') (hhead : seed.head? ≠ some '/')
    (hseed : seed = [] ∨ ¬ seed <+: "http:/".toList)
    (hi : Contains (StripScheme seed) httpsScheme = false)
    (hh : ∀ h, some h ∈ as → Contains (StripScheme h) httpsScheme = false)
    (hoff : ¬ StripScheme seed <+: StripScheme c) :
    ∃ r', run w (fuel + 1) seed 1 dest = some (r', none) ∧
      fetched r'.trace = [AddHttpPrefixToUrlIfNeeded seed] ∧
      crawlCalls r'.trace = [(seed, 1)] ∧
      (∀ k, mapGet r'.f.LinksToProcess k ≠ none → StripScheme seed <+: StripScheme k) ∧
      mapGet r'.f.LinksToProcess c = none := by
  obtain ⟨hbf, hbt⟩ := stateAtFetch_newFetcher seed dest 1
  have hc := createFileFromLink_state w
    (stateAtFetch { f := NewFetcher seed 1 dest, trace := [] } seed 1)
    (AddHttpPrefixToUrlIfNeeded seed)
  have hloop : stateAtLoop w { f := NewFetcher seed 1 dest, trace := [] } seed 1 body =
      (CopyToFileAndProcessLinks w
        (CreateFileFromLink w (stateAtFetch { f := NewFetcher seed 1 dest, trace := [] } seed 1)
          (AddHttpPrefixToUrlIfNeeded seed)).1
        (CreateFileFromLink w (stateAtFetch { f := NewFetcher seed 1 dest, trace := [] } seed 1)
          (AddHttpPrefixToUrlIfNeeded seed)).2 body).1 := rfl
  have hf := copyToFile_fetcher w
    (CreateFileFromLink w (stateAtFetch { f := NewFetcher seed 1 dest, trace := [] } seed 1)
      (AddHttpPrefixToUrlIfNeeded seed)).1
    (CreateFileFromLink w (stateAtFetch { f := NewFetcher seed 1 dest, trace := [] } seed 1)
      (AddHttpPrefixToUrlIfNeeded seed)).2 body as has
  have ht := copyToFile_trace w
    (CreateFileFromLink w (stateAtFetch { f := NewFetcher seed 1 dest, trace := [] } seed 1)
      (AddHttpPrefixToUrlIfNeeded seed)).1
    (CreateFileFromLink w (stateAtFetch { f := NewFetcher seed 1 dest, trace := [] } seed 1)
      (AddHttpPrefixToUrlIfNeeded seed)).2 body
  rw [← hloop] at hf ht
  rw [hc.1, hbf] at hf
  rw [hc.2.1, hbt] at ht
  rw [hc.2.2.1, hbt] at ht
  have hfields := processAnchors_fields as
    { NewFetcher seed 1 dest with LinksToProcess := [(seed, true)] }
  have hmax : (stateAtLoop w { f := NewFetcher seed 1 dest, trace := [] } seed 1 body).f.MaxDepth
      = 1 := by
    rw [hf]
    split
    · exact hfields.2.1
    · rfl
  have hrun : run w (fuel + 1) seed 1 dest =
      some (stateAtLoop w { f := NewFetcher seed 1 dest, trace := [] } seed 1 body, none) :=
    crawl_without_recursion w fuel _ seed body 1 hget (by rw [hmax]; decide)
  have hbase : ∀ k, mapGet [(seed, true)] k ≠ none → k = seed := by
    intro k hk
    by_contra hne
    have : ¬ seed = k := fun h' => hne h'.symm
    simp [mapGet, this] at hk
  have hkeys : ∀ k,
      mapGet (stateAtLoop w { f := NewFetcher seed 1 dest, trace := [] } seed 1
        body).f.LinksToProcess k ≠ none → StripScheme seed <+: StripScheme k := by
    intro k hk
    rw [hf] at hk
    split at hk
    · rcases (processAnchors_keys as _ k).mp hk with h' | ⟨h, hm, hs, rfl⟩
      · rw [hbase k h']
      · exact registeredKey_sameSite seed h hlast hhead hseed hi (hh h hm) hs
    · rw [hbase k hk]
  refine ⟨_, hrun, by simpa [fetched] using ht.1, by simpa [crawlCalls] using ht.2, hkeys, ?_⟩
  by_contra hne
  exact hoff (hkeys c hne)

/-- C4, amended, on `threeLinkSite` with the seed `"http://example.com"` and the
off-site URL `"http://other.com"`. -/
theorem C4_depth_one_witness :
    (threeLinkSite.httpGet (AddHttpPrefixToUrlIfNeeded "http://example.com".toList) =
        some (200, "home".toList) ∧
      threeLinkSite.anchors "home".toList =
        some [some "http://example.com/a".toList, some "http://example.com/b".toList,
          some "http://other.com".toList] ∧
      ("http://example.com".toList).getLast? ≠ some '/' ∧
      ("http://example.com".toList).head? ≠ some '/' ∧
      ("http://example.com".toList = [] ∨ ¬ "http://example.com".toList <+: "http:/".toList) ∧
      Contains (StripScheme "http://example.com".toList) httpsScheme = false ∧
      (∀ h, some h ∈ ([some "http://example.com/a".toList, some "http://example.com/b".toList,
          some "http://other.com".toList] : List (Option GoString)) →
        Contains (StripScheme h) httpsScheme = false) ∧
      ¬ StripScheme "http://example.com".toList <+: StripScheme "http://other.com".toList) ∧
    ∃ r', run threeLinkSite (0 + 1) "http://example.com".toList 1 "downloads".toList =
        some (r', none) ∧
      fetched r'.trace = [AddHttpPrefixToUrlIfNeeded "http://example.com".toList] ∧
      crawlCalls r'.trace = [("http://example.com".toList, 1)] ∧
      (∀ k, mapGet r'.f.LinksToProcess k ≠ none →
        StripScheme "http://example.com".toList <+: StripScheme k) ∧
      mapGet r'.f.LinksToProcess "http://other.com".toList = none :=
  have hh : ∀ h, some h ∈ ([some "http://example.com/a".toList, some "http://example.com/b".toList,
          some "http://other.com".toList] : List (Option GoString)) →
      Contains (StripScheme h) httpsScheme = false := by
    intro h hm
    simp only [List.mem_cons, Option.some.injEq, List.mem_singleton] at hm
    rcases hm with rfl | rfl | rfl | hm
    · decide
    · decide
    · decide
    · cases hm
  ⟨⟨by decide, by decide, by decide, by decide, Or.inr (by decide), by decide, hh, by decide⟩,
    C4_depth_one threeLinkSite 0 "http://example.com".toList "downloads".toList "home".toList
      [some "http://example.com/a".toList, some "http://example.com/b".toList,
          some "http://other.com".toList] "http://other.com".toList
      (by decide) (by decide) (by decide) (by decide) (Or.inr (by decide)) (by decide) hh
      (by decide)⟩

end Crawler
